import Mathlib

/-!
Verification development for `src/notifier.py`, a poll-evaluate-notify
command-line utility.  Python strings are modeled as `List Char`.  The
regular-expression searches the program performs (word-boundary-delimited
literal alternations, the token-then-marker unavailability pattern) are
embedded as explicit bounded searches with the semantics of Python's `re`
module on those patterns; arbitrary user-supplied regex patterns passed on
the command line are modeled by an abstract search oracle, and a small
executable engine covers the concrete patterns exercised by the examples.
-/

namespace Notifier

/-- Word character for the regex metacharacter `\b` (ASCII fragment: letters,
digits, underscore). -/
def isWordChar (c : Char) : Bool := c.isAlphanum || c == '_'

/-- Whether position `i` of `s` holds a word character (false past the end). -/
def wordCharAt (s : List Char) (i : Nat) : Bool :=
  match (s.drop i).head? with
  | some c => isWordChar c
  | none => false

/-- Word-boundary test at position `i`, as Python `re` defines `\b`: the two
sides of the position disagree about being a word character (outside the
string counts as non-word). -/
def boundaryAt (s : List Char) (i : Nat) : Bool :=
  (if i = 0 then false else wordCharAt s (i - 1)) != wordCharAt s i

/-- `pat` occurs literally in `s` starting at position `i`. -/
def occursAt (s pat : List Char) (i : Nat) : Bool :=
  pat.isPrefixOf (s.drop i)

/-- Literal pattern match at `i` with word boundaries on both sides
(`\b pat \b` anchored at `i`). -/
def wbMatchAt (pat s : List Char) (i : Nat) : Bool :=
  occursAt s pat i && boundaryAt s i && boundaryAt s (i + pat.length)

/-- `re.search` of a word-boundary-delimited literal: some start position
within the text matches. -/
def wordBoundarySearch (pat s : List Char) : Bool :=
  (List.range (s.length + 1)).any (fun i => wbMatchAt pat s i)

/-- Uppercasing, modeling `str.upper` and `re.IGNORECASE` folding (ASCII). -/
def upperStr (s : List Char) : List Char := s.map Char.toUpper

/-- Case-insensitive word-boundary search (`re.IGNORECASE`). -/
def ciWordBoundarySearch (pat s : List Char) : Bool :=
  wordBoundarySearch (upperStr pat) (upperStr s)

/-- `pat` occurs in `s` at some position at or after `start`. -/
def containsFrom (s pat : List Char) (start : Nat) : Bool :=
  (List.range (s.length + 1)).any (fun j => decide (start ≤ j) && occursAt s pat j)

/-- Plain substring containment, Python's `pat in s` for strings. -/
def containsSub (s pat : List Char) : Bool :=
  (List.range (s.length + 1)).any (fun i => occursAt s pat i)

/-- Python `str.strip` on both ends. -/
def strip (s : List Char) : List Char :=
  ((s.dropWhile Char.isWhitespace).reverse.dropWhile Char.isWhitespace).reverse

/-- The `region.strip().upper()` normalization applied to configured region
tokens (notifier.py lines 44 and 56). -/
def normToken (s : List Char) : List Char := upperStr (strip s)

/-- The `"keyword:"` tag prefixed to a firing keyword rule (line 36). -/
def kwTag : List Char := "keyword:".data

/-- The `"regex:"` tag prefixed to a firing regex rule (line 39). -/
def rxTag : List Char := "regex:".data

/-- The keyword loop of `matches` (notifier.py lines 34-36): append a tagged
hit for each keyword occurring as a literal substring, in configuration
order. -/
def keywordHits (content : List Char) : List (List Char) → List (List Char)
  | [] => []
  | k :: ks =>
    (if containsSub content k then [kwTag ++ k] else []) ++ keywordHits content ks

/-- The regex loop of `matches` (lines 37-39); `reSearch` is the `re.search`
oracle on pattern strings. -/
def regexHits (reSearch : List Char → List Char → Bool) (content : List Char) :
    List (List Char) → List (List Char)
  | [] => []
  | r :: rs =>
    (if reSearch r content then [rxTag ++ r] else []) ++ regexHits reSearch content rs

/-- `matches(content, keywords, regexes)` (notifier.py lines 30-40): the
match outcome and the ordered fired-rule list. -/
def matchesFn (reSearch : List Char → List Char → Bool) (content : List Char)
    (keywords regexes : List (List Char)) : Bool × List (List Char) :=
  let hits := keywordHits content keywords ++ regexHits reSearch content regexes
  (!hits.isEmpty, hits)

/-- Minimal regex AST covering the pattern constructs exercised by the spec
examples: a start anchor, a literal character, a one-or-more character. -/
inductive RE where
  | bol : RE
  | lit : Char → RE
  | plus : Char → RE
deriving DecidableEq

/-- Length of the run of character `c` at the front of a list. -/
def runLen (c : Char) : List Char → Nat
  | [] => 0
  | x :: xs => if x = c then runLen c xs + 1 else 0

/-- Candidate end positions after matching one regex item at position `i`. -/
def itemEnds (s : List Char) (i : Nat) : RE → List Nat
  | .bol => if i = 0 then [i] else []
  | .lit c => if (s.drop i).head? = some c then [i + 1] else []
  | .plus c =>
    let k := runLen c (s.drop i)
    (List.range k).map (fun d => i + 1 + d)

/-- End positions after matching a sequence of regex items from position `i`. -/
def seqEnds (s : List Char) : List RE → Nat → List Nat
  | [], i => [i]
  | r :: rs, i => (itemEnds s i r).flatMap (fun j => seqEnds s rs j)

/-- Regex metacharacters the mini engine refuses to treat as literals. -/
def metaChar (c : Char) : Bool :=
  c ∈ ['^', '$', '*', '+', '?', '.', '(', ')', '[', ']', '\x7b', '\x7d', '\\', '|']

/-- Parse the plain-literal / trailing-plus fragment of a pattern string. -/
def parseItems : List Char → Option (List RE)
  | [] => some []
  | c :: '+' :: rest =>
    if metaChar c then none else (parseItems rest).map (fun rs => RE.plus c :: rs)
  | c :: rest =>
    if metaChar c then none else (parseItems rest).map (fun rs => RE.lit c :: rs)

/-- Parse a pattern string, allowing a leading start anchor. -/
def parseRE : List Char → Option (List RE)
  | '^' :: rest => (parseItems rest).map (fun rs => RE.bol :: rs)
  | s => parseItems s

/-- `re.search` for patterns in the mini fragment; used to instantiate the
abstract search oracle on the concrete example patterns. -/
def miniSearch (p s : List Char) : Bool :=
  match parseRE p with
  | some rs => (List.range (s.length + 1)).any (fun i => !(seqEnds s rs i).isEmpty)
  | none => false

/-- `build_region_regex` (notifier.py lines 43-48): normalize and drop blank
tokens; `None` when nothing remains.  The regex string
`\b(?:T1|...|Tn)\b` of escaped literals is represented by its token list. -/
def build_region_regex (regions : List (List Char)) : Option (List (List Char)) :=
  let cleaned := (regions.map normToken).filter (fun t => !t.isEmpty)
  if cleaned.isEmpty then none else some cleaned

/-- `re.search` of the built region regex against the fetched text
(notifier.py line 220).  No `re.IGNORECASE` flag is passed there, so the
search is case-sensitive. -/
def regionAltSearch (toks : List (List Char)) (content : List Char) : Bool :=
  toks.any (fun t => wordBoundarySearch t content)

/-- The region-filter gate of `main` (lines 217-220): vacuously true when
`build_region_regex` returned `None`. -/
def regionFilterPass (regions : List (List Char)) (content : List Char) : Bool :=
  match build_region_regex regions with
  | none => true
  | some toks => regionAltSearch toks content

/-- The unavailability pattern `\b TOK \b .*? MARKER` searched with
`re.IGNORECASE | re.DOTALL` (notifier.py lines 59-63): a word-boundary
occurrence of the token followed, after any characters including newlines,
by the literal marker text. -/
def unavailMatch (tok content marker : List Char) : Bool :=
  (List.range (content.length + 1)).any (fun i =>
    wbMatchAt (upperStr tok) (upperStr content) i &&
      containsFrom (upperStr content) (upperStr marker) (i + (upperStr tok).length))

/-- The per-token loop of `region_is_available` (lines 54-66), preserving
configuration order. -/
def regionLoop (content marker : List Char) : List (List Char) → List (List Char)
  | [] => []
  | region :: rest =>
    let tok := normToken region
    if tok.isEmpty then regionLoop content marker rest
    else if unavailMatch tok content marker then regionLoop content marker rest
    else if ciWordBoundarySearch tok content then tok :: regionLoop content marker rest
    else regionLoop content marker rest

/-- `region_is_available(content, regions, unavailable_text)` (lines 51-67). -/
def region_is_available (content : List Char) (regions : List (List Char))
    (unavailable_text : List Char) : Bool × List (List Char) :=
  let available := regionLoop content unavailable_text regions
  (!available.isEmpty, available)

/-- One left-to-right pass of `str.replace` with explicit fuel; fuel at least
the string length makes it exact, since every step consumes a character. -/
def replaceFuel (pat rep : List Char) : Nat → List Char → List Char
  | _, [] => []
  | 0, s => s
  | fuel + 1, c :: rest =>
    if !pat.isEmpty && pat.isPrefixOf (c :: rest) then
      rep ++ replaceFuel pat rep fuel ((c :: rest).drop pat.length)
    else
      c :: replaceFuel pat rep fuel rest

/-- Python `s.replace(pat, rep)` for a non-empty `pat`: replace every
non-overlapping occurrence, scanning left to right. -/
def replaceAll (s pat rep : List Char) : List Char :=
  replaceFuel pat rep s.length s

/-- The literal region placeholder looked up in the message template
(notifier.py line 186). -/
def placeholderRegions : List Char := "\x7bregions\x7d".data

/-- Python `", ".join`. -/
def joinComma (xs : List (List Char)) : List Char := List.intercalate ", ".data xs

/-- `format_region_message(message, regions)` (notifier.py lines 182-188). -/
def format_region_message (message : List Char) (regions : List (List Char)) :
    List Char :=
  if regions.isEmpty then message
  else
    let region_text := joinComma regions
    if containsSub message placeholderRegions then
      replaceAll message placeholderRegions region_text
    else
      message ++ "\nAvailable regions: ".data ++ region_text

/-- Python truthiness of an optional string: `None` and `""` are falsy. -/
def truthy : Option (List Char) → Bool
  | none => false
  | some s => !s.isEmpty

/-- The configuration fields of `main` consumed by the poll loop, built by
the (excluded) CLI layer.  Fetch-related fields (url, method, headers,
timeout) live in the fetch collaborator and are not needed here. -/
structure Config where
  keyword : List (List Char)
  regex : List (List Char)
  region : List (List Char)
  region_available : Bool
  region_unavailable_text : List Char
  command : Option (List Char)
  telegram_token : Option (List Char)
  telegram_chat_id : Option (List Char)
  telegram_message : List Char
  include_matches : Bool
  once : Bool
  interval : Nat
deriving DecidableEq

/-- Outcome of one `fetch_url` call (collaborator): decoded text, or the
message of the exception it raised. -/
inductive FetchOutcome where
  | ok : List Char → FetchOutcome
  | fail : List Char → FetchOutcome
deriving DecidableEq

/-- Outcome of one `send_telegram_message` call (collaborator): `urlopen`
raises on transport failure. -/
inductive SendOutcome where
  | sent : SendOutcome
  | sendFail : List Char → SendOutcome
deriving DecidableEq

/-- External inputs consumed by one iteration of the `while` loop: the fetch
outcome, the timestamp read from the clock, and the messaging transport
outcome (consulted only if a send happens). -/
structure IterInput where
  fetch : FetchOutcome
  ts : List Char
  send : SendOutcome
deriving DecidableEq

/-- Observable effects of the loop. -/
inductive Event where
  | logFailure : List Char → Event
  | logMatch : List Char → Event
  | runCmd : List Char → Event
  | sendMsg : List Char → Event
  | sleep : Nat → Event
deriving DecidableEq

/-- How one iteration ends: fall through to the next poll, `return 0`, or an
uncaught exception carrying a message. -/
inductive IterResult where
  | next : IterResult
  | exitZero : IterResult
  | crashed : List Char → IterResult
deriving DecidableEq

/-- Result of running the loop on a finite prefix of its inputs. -/
inductive LoopResult where
  | pending : LoopResult
  | exited : Nat → LoopResult
  | crashed : List Char → LoopResult
deriving DecidableEq

/-- The stderr line of a fetch failure (notifier.py line 215). -/
def failLine (ts msg : List Char) : List Char :=
  "[".data ++ ts ++ "] Request failed: ".data ++ msg

/-- The stdout line of a detection (notifier.py line 228). -/
def matchLine (ts : List Char) : List Char :=
  "[".data ++ ts ++ "] Match detected.".data

/-- The trigger decision of `main` lines 217-226 for one fetched text:
`matched and region_ok`, where `region_ok` starts as the region-filter gate
and is replaced by the availability outcome when that gate passed,
availability mode is on, and the region list is non-empty. -/
def triggerDecision (reSearch : List Char → List Char → Bool) (cfg : Config)
    (content : List Char) : Bool :=
  let region_ok0 := regionFilterPass cfg.region content
  let region_ok :=
    if region_ok0 && cfg.region_available && !cfg.region.isEmpty then
      (region_is_available content cfg.region cfg.region_unavailable_text).1
    else region_ok0
  (matchesFn reSearch content cfg.keyword cfg.regex).1 && region_ok

/-- `available_regions` as computed by `main` lines 218-224: empty unless the
availability branch ran. -/
def availableRegions (cfg : Config) (content : List Char) : List (List Char) :=
  if regionFilterPass cfg.region content && cfg.region_available &&
      !cfg.region.isEmpty then
    (region_is_available content cfg.region cfg.region_unavailable_text).2
  else []

/-- `re.escape`: Python 3.7+ escapes exactly its special-character set. -/
def reSpecial (c : Char) : Bool :=
  c ∈ ['(', ')', '[', ']', '\x7b', '\x7d', '?', '*', '+', '-', '|', '^', '$',
    '\\', '.', '&', '~', '#', ' ', '\t', '\n', '\r', '\x0b', '\x0c']

/-- `re.escape` over a token. -/
def reEscape (s : List Char) : List Char :=
  s.flatMap (fun c => if reSpecial c then ['\\', c] else [c])

/-- The regex string `build_region_regex` produced, as interpolated into the
detail line of notifier.py line 238. -/
def regionRegexText (toks : List (List Char)) : List Char :=
  "\\b(?:".data ++ List.intercalate "|".data (toks.map reEscape) ++ ")\\b".data

/-- Message construction of `main` lines 232-243. -/
def buildMessage (cfg : Config) (hits avail : List (List Char)) : List Char :=
  let m0 := cfg.telegram_message
  let m1 :=
    if cfg.region_available && !avail.isEmpty then format_region_message m0 avail
    else m0
  if cfg.include_matches then
    let details :=
      hits ++
        (match build_region_regex cfg.region with
          | some toks => ["region:".data ++ regionRegexText toks]
          | none => []) ++
        (if !avail.isEmpty then ["region_available:".data ++ joinComma avail]
          else [])
    m1 ++ "\nMatches: ".data ++ joinComma details
  else m1

/-- One iteration of the `while` loop (notifier.py lines 210-252).  The
`except` clause covers only the `fetch_url` call in the `try` suite; an
exception raised inside the `else` suite — in particular a transport failure
of `send_telegram_message` — propagates and ends the loop.  `return 0` on
line 251 precedes the `time.sleep` call of line 252. -/
def loopIteration (reSearch : List Char → List Char → Bool) (cfg : Config)
    (inp : IterInput) : List Event × IterResult :=
  match inp.fetch with
  | .fail msg =>
    ([Event.logFailure (failLine inp.ts msg), Event.sleep cfg.interval], .next)
  | .ok content =>
    if triggerDecision reSearch cfg content then
      let hits := (matchesFn reSearch content cfg.keyword cfg.regex).2
      let avail := availableRegions cfg content
      let evs1 := Event.logMatch (matchLine inp.ts) ::
        (if truthy cfg.command then [Event.runCmd (cfg.command.getD [])] else [])
      if truthy cfg.telegram_token && truthy cfg.telegram_chat_id then
        match inp.send with
        | .sendFail m => (evs1, .crashed m)
        | .sent =>
          let evs2 := evs1 ++ [Event.sendMsg (buildMessage cfg hits avail)]
          if cfg.once then (evs2, .exitZero)
          else (evs2 ++ [Event.sleep cfg.interval], .next)
      else
        if cfg.once then (evs1, .exitZero)
        else (evs1 ++ [Event.sleep cfg.interval], .next)
    else ([Event.sleep cfg.interval], .next)

/-- Run the loop over a finite list of per-iteration external inputs,
stopping early on `return 0` or on an uncaught exception. -/
def runLoop (reSearch : List Char → List Char → Bool) (cfg : Config) :
    List IterInput → List Event × LoopResult
  | [] => ([], .pending)
  | inp :: rest =>
    let step := loopIteration reSearch cfg inp
    match step.2 with
    | .next =>
      let tail := runLoop reSearch cfg rest
      (step.1 ++ tail.1, tail.2)
    | .exitZero => (step.1, .exited 0)
    | .crashed m => (step.1, .crashed m)

/-- The two startup validations of `main` lines 195-200; `parser.error`
prints usage and exits with code 2. -/
def configError (cfg : Config) : Bool :=
  (cfg.keyword.isEmpty && cfg.regex.isEmpty) ||
    ((truthy cfg.telegram_token && !truthy cfg.telegram_chat_id) ||
      (truthy cfg.telegram_chat_id && !truthy cfg.telegram_token))

/-- `main` (notifier.py lines 191-252): validate the configuration, then run
the poll loop. -/
def mainRun (reSearch : List Char → List Char → Bool) (cfg : Config)
    (inputs : List IterInput) : List Event × LoopResult :=
  if configError cfg then ([], .exited 2) else runLoop reSearch cfg inputs

/-- The region-filter rule exactly as the specification words it (spec
section 4.4 rule 1): the content contains at least one configured token,
matched with word boundaries and case-insensitively. -/
def specRegionFilterCI (regions : List (List Char)) (content : List Char) : Bool :=
  regions.any (fun r => ciWordBoundarySearch r content)

/-- Whether an event list contains a sleep. -/
def hasSleep (evs : List Event) : Bool :=
  evs.any (fun e => match e with | Event.sleep _ => true | _ => false)

/-- Number of messaging dispatches in an event list. -/
def countSend (evs : List Event) : Nat :=
  (evs.filter (fun e => match e with | Event.sendMsg _ => true | _ => false)).length

/-- Number of command dispatches in an event list. -/
def countCmd (evs : List Event) : Nat :=
  (evs.filter (fun e => match e with | Event.runCmd _ => true | _ => false)).length

/-- Concrete configuration for the case-sensitivity analysis of the region
filter: keyword `available`, region token `SG`, availability mode off. -/
def cfgC1ex : Config :=
  ⟨["available".data], [], ["SG".data], false, "full and unavailable".data,
    none, none, none, "Resource is available.".data, false, false, 25⟩

/-- Concrete configuration with messaging credentials: keyword `hi`, both
credentials set, single-shot off. -/
def cfgC2ex : Config :=
  ⟨["hi".data], [], [], false, "full and unavailable".data, none,
    some "t".data, some "c".data, "Resource is available.".data, false, false, 25⟩

/-- A poll whose fetch succeeds with matching text but whose messaging
transport fails. -/
def inpC2a : IterInput :=
  ⟨FetchOutcome.ok "hi".data, "t1".data, SendOutcome.sendFail "boom".data⟩

/-- A subsequent poll that would match and send successfully. -/
def inpC2b : IterInput := ⟨FetchOutcome.ok "hi".data, "t2".data, SendOutcome.sent⟩

/-- A configuration failing validation: no keyword and no regex. -/
def cfgC7ex : Config :=
  ⟨[], [], [], false, "full and unavailable".data, none, none, none,
    "Resource is available.".data, false, false, 25⟩

/-- The end-to-end single-shot configuration of the spec scenario: keyword
`available`, region `SG`, availability mode, marker `sold out`, `--once`. -/
def cfgC8ex : Config :=
  ⟨["available".data], [], ["SG".data], true, "sold out".data, none, none, none,
    "Resource is available.".data, false, true, 25⟩

/-- First poll of the scenario: `SG` is marked sold out, so no trigger. -/
def inpC8a : IterInput :=
  ⟨FetchOutcome.ok "SG sold out, DE available".data, "t1".data, SendOutcome.sent⟩

/-- Second poll of the scenario: `SG` is available, so the trigger fires. -/
def inpC8b : IterInput :=
  ⟨FetchOutcome.ok "SG available now".data, "t2".data, SendOutcome.sent⟩

/-! ## Helper lemmas -/

/-- The keyword loop collects exactly the firing keywords, tagged, in
configuration order. -/
theorem keywordHits_eq (content : List Char) (ks : List (List Char)) :
    keywordHits content ks =
      (ks.filter (fun k => containsSub content k)).map (fun k => kwTag ++ k) := by
  induction ks with
  | nil => rfl
  | cons k ks ih =>
    simp only [keywordHits, List.filter_cons]
    cases h : containsSub content k <;> simp [h, ih]

/-- The regex loop collects exactly the firing patterns, tagged, in
configuration order. -/
theorem regexHits_eq (reSearch : List Char → List Char → Bool)
    (content : List Char) (rs : List (List Char)) :
    regexHits reSearch content rs =
      (rs.filter (fun r => reSearch r content)).map (fun r => rxTag ++ r) := by
  induction rs with
  | nil => rfl
  | cons r rs ih =>
    simp only [regexHits, List.filter_cons]
    cases h : reSearch r content <;> simp [h, ih]

/-- A true word boundary lies within the string. -/
theorem boundaryAt_le (s : List Char) (i : Nat) (h : boundaryAt s i = true) :
    i ≤ s.length := by
  by_contra hc
  push_neg at hc
  have h1 : wordCharAt s i = false := by
    simp [wordCharAt, List.drop_eq_nil_of_le (le_of_lt hc)]
  have hne : ¬i = 0 := by omega
  have h2 : wordCharAt s (i - 1) = false := by
    have hd : s.length ≤ i - 1 := by omega
    simp [wordCharAt, List.drop_eq_nil_of_le hd]
  rw [boundaryAt, h1, if_neg hne, h2] at h
  simp at h

/-- A word-boundary match fits inside the string. -/
theorem wbMatchAt_le {pat s : List Char} {i : Nat} (h : wbMatchAt pat s i = true) :
    i + pat.length ≤ s.length := by
  simp only [wbMatchAt, Bool.and_eq_true] at h
  exact boundaryAt_le _ _ h.2

/-- A non-empty literal occurrence starts inside the string. -/
theorem occursAt_lt {s pat : List Char} {j : Nat} (hp : pat ≠ [])
    (h : occursAt s pat j = true) : j < s.length := by
  rw [occursAt, List.isPrefixOf_iff_prefix] at h
  have h1 := h.length_le
  rw [List.length_drop] at h1
  have h2 : 0 < pat.length := List.length_pos.mpr hp
  omega

/-- With an empty marker, any token matching the bare case-insensitive
word-boundary pattern also matches the unavailability pattern: the
non-greedy gap matches zero characters and the empty marker matches right
after the token. -/
theorem unavail_of_ci (tok content : List Char)
    (h : ciWordBoundarySearch tok content = true) :
    unavailMatch tok content [] = true := by
  simp only [ciWordBoundarySearch, wordBoundarySearch, List.any_eq_true] at h
  obtain ⟨i, hi, hm⟩ := h
  have hlen : (upperStr content).length = content.length := by
    simp [upperStr]
  have hle := wbMatchAt_le hm
  simp only [unavailMatch, List.any_eq_true]
  refine ⟨i, ?_, ?_⟩
  · rw [List.mem_range] at hi ⊢
    omega
  · simp only [Bool.and_eq_true]
    refine ⟨hm, ?_⟩
    simp only [containsFrom, List.any_eq_true]
    refine ⟨i + (upperStr tok).length, ?_, ?_⟩
    · rw [List.mem_range]
      omega
    · simp [occursAt, upperStr, List.isPrefixOf]

/-- The region loop equals a filter over the normalized tokens: keep a token
iff it is non-blank, fails the unavailability pattern, and matches the bare
case-insensitive word-boundary pattern. -/
theorem regionLoop_eq (content marker : List Char) (regions : List (List Char)) :
    regionLoop content marker regions =
      (regions.map normToken).filter
        (fun t => !t.isEmpty && !unavailMatch t content marker &&
          ciWordBoundarySearch t content) := by
  induction regions with
  | nil => rfl
  | cons region rest ih =>
    simp only [regionLoop, List.map_cons, List.filter_cons]
    cases h1 : (normToken region).isEmpty with
    | true => simp [h1, ih]
    | false =>
      cases h2 : unavailMatch (normToken region) content marker with
      | true => simp [h1, h2, ih]
      | false =>
        cases h3 : ciWordBoundarySearch (normToken region) content with
        | true => simp [h1, h2, h3, ih]
        | false => simp [h1, h2, h3, ih]

/-- Once the loop reaches a `return 0` iteration after a prefix of
fall-through iterations, the whole run's events are the prefix's followed by
that iteration's, and the process exits 0 with later inputs unconsumed. -/
theorem runLoop_stop (reSearch : List Char → List Char → Bool) (cfg : Config)
    (inputs1 : List IterInput) :
    ∀ (evs1 : List Event) (inp : IterInput) (rest : List IterInput)
      (evs : List Event),
      runLoop reSearch cfg inputs1 = (evs1, LoopResult.pending) →
      loopIteration reSearch cfg inp = (evs, IterResult.exitZero) →
      runLoop reSearch cfg (inputs1 ++ inp :: rest) =
        (evs1 ++ evs, LoopResult.exited 0) := by
  induction inputs1 with
  | nil =>
    intro evs1 inp rest evs h1 h2
    rw [runLoop] at h1
    obtain ⟨he, -⟩ := Prod.mk.injEq .. ▸ h1
    subst he
    simp [runLoop, h2]
  | cons x xs ih =>
    intro evs1 inp rest evs h1 h2
    rcases hx : loopIteration reSearch cfg x with ⟨xevs, xres⟩
    rcases hy : runLoop reSearch cfg xs with ⟨tevs, tres⟩
    rw [runLoop, hx] at h1
    cases xres with
    | next =>
      rw [hy] at h1
      obtain ⟨he, hr⟩ := Prod.mk.injEq .. ▸ h1
      subst he
      subst hr
      have htail := ih tevs inp rest evs hy h2
      rw [List.cons_append, runLoop, hx, htail, List.append_assoc]
    | exitZero => simp at h1
    | crashed m => simp at h1

/-! ## Claim theorems -/

/-- Claim C5: the Match Evaluator returns matched = true iff some keyword
occurs as a case-sensitive literal substring of the text or some regex
matches somewhere in it; the fired-rule list is all firing keywords first in
configuration order (tagged `keyword:`), then all firing regexes in
configuration order (tagged `regex:`); and the three spec examples evaluate
as stated (the regex examples under the executable mini engine). -/
theorem C5_matches :
    (∀ (reSearch : List Char → List Char → Bool) (content : List Char)
      (keywords regexes : List (List Char)),
      ((matchesFn reSearch content keywords regexes).1 = true ↔
        (∃ k ∈ keywords, containsSub content k = true) ∨
          ∃ r ∈ regexes, reSearch r content = true) ∧
      (matchesFn reSearch content keywords regexes).2 =
        (keywords.filter (fun k => containsSub content k)).map
            (fun k => kwTag ++ k) ++
          (regexes.filter (fun r => reSearch r content)).map
            (fun r => rxTag ++ r)) ∧
    matchesFn miniSearch "hello world".data ["hello".data] [] =
      (true, ["keyword:hello".data]) ∧
    matchesFn miniSearch "abc".data ["x".data] ["^a".data] =
      (true, ["regex:^a".data]) ∧
    matchesFn miniSearch "abc".data ["x".data] ["z+".data] = (false, []) := by
  refine ⟨?_, by decide, by decide, by decide⟩
  intro reSearch content keywords regexes
  refine ⟨?_, ?_⟩
  · show (!(keywordHits content keywords ++
      regexHits reSearch content regexes).isEmpty) = true ↔ _
    rw [Bool.not_eq_true', List.isEmpty_eq_false, keywordHits_eq, regexHits_eq]
    simp only [ne_eq, List.append_eq_nil, List.map_eq_nil_iff,
      List.filter_eq_nil_iff, not_and_or, not_forall]
    constructor
    · rintro (h | h) <;> [left; right] <;>
        · obtain ⟨x, hx, hp⟩ := h
          exact ⟨x, hx, by simpa using hp⟩
    · rintro (h | h) <;> [left; right] <;>
        · obtain ⟨x, hx, hp⟩ := h
          exact ⟨x, hx, by simpa using hp⟩
  · show keywordHits content keywords ++ regexHits reSearch content regexes = _
    rw [keywordHits_eq, regexHits_eq]

/-- Claim C3: the trigger decision is positive iff the Match Evaluator
outcome is true, the region-filter gate passes, and — when availability mode
is enabled with a non-empty region list — the Region Evaluator outcome is
true; with no region tokens configured the decision equals the MatchOutcome
alone. -/
theorem C3_combiner :
    (∀ (reSearch : List Char → List Char → Bool) (cfg : Config)
      (content : List Char),
      triggerDecision reSearch cfg content =
        ((matchesFn reSearch content cfg.keyword cfg.regex).1 &&
          (regionFilterPass cfg.region content &&
            (!(cfg.region_available && !cfg.region.isEmpty) ||
              (region_is_available content cfg.region
                cfg.region_unavailable_text).1)))) ∧
    (∀ (reSearch : List Char → List Char → Bool) (cfg : Config)
      (content : List Char),
      triggerDecision reSearch { cfg with region := [] } content =
        (matchesFn reSearch content cfg.keyword cfg.regex).1) := by
  constructor
  · intro reSearch cfg content
    simp only [triggerDecision]
    cases h0 : regionFilterPass cfg.region content <;>
      cases h1 : cfg.region_available <;>
        cases h2 : cfg.region.isEmpty <;>
          cases h3 : (region_is_available content cfg.region
              cfg.region_unavailable_text).1 <;>
            simp [h0, h1, h2, h3]
  · intro reSearch cfg content
    simp [triggerDecision, regionFilterPass, build_region_regex]

/-- Claim C9: with a non-empty available-region list, the dispatched body is
the template with every occurrence of the placeholder replaced by the
comma-joined list when the placeholder occurs, and otherwise the template
with an `Available regions:` line appended; with an empty list the template
is returned unchanged. -/
theorem C9_format :
    (∀ message : List Char, format_region_message message [] = message) ∧
    (∀ (message r : List Char) (rs : List (List Char)),
      format_region_message message (r :: rs) =
        if containsSub message placeholderRegions = true then
          replaceAll message placeholderRegions (joinComma (r :: rs))
        else message ++ "\nAvailable regions: ".data ++ joinComma (r :: rs)) ∧
    format_region_message "Go: \x7bregions\x7d now".data
        ["SG".data, "IN".data] = "Go: SG, IN now".data ∧
    format_region_message "Ready".data ["SG".data] =
      "Ready\nAvailable regions: SG".data := by
  refine ⟨fun message => rfl, ?_, by decide, by decide⟩
  intro message r rs
  simp only [format_region_message, List.isEmpty_cons]
  cases h : containsSub message placeholderRegions <;> simp [h]

/-- Claim C6: a failed fetch logs one timestamped failure line, runs neither
evaluation nor dispatch, sleeps the normal configured interval and
continues; two consecutive fetch failures produce exactly two failure lines
and two full sleeps with no other events and no termination. -/
theorem C6_fetch_failure :
    (∀ (reSearch : List Char → List Char → Bool) (cfg : Config)
      (ts msg : List Char) (send : SendOutcome),
      loopIteration reSearch cfg ⟨FetchOutcome.fail msg, ts, send⟩ =
        ([Event.logFailure (failLine ts msg), Event.sleep cfg.interval],
          IterResult.next)) ∧
    (∀ (reSearch : List Char → List Char → Bool) (cfg : Config)
      (ts1 msg1 ts2 msg2 : List Char) (s1 s2 : SendOutcome),
      runLoop reSearch cfg
        [⟨FetchOutcome.fail msg1, ts1, s1⟩, ⟨FetchOutcome.fail msg2, ts2, s2⟩] =
        ([Event.logFailure (failLine ts1 msg1), Event.sleep cfg.interval,
          Event.logFailure (failLine ts2 msg2), Event.sleep cfg.interval],
          LoopResult.pending)) := by
  refine ⟨fun reSearch cfg ts msg send => rfl, ?_⟩
  intro reSearch cfg ts1 msg1 ts2 msg2 s1 s2
  rfl

/-- Claim C7: a configuration with both rule lists empty, or with exactly one
of the two messaging credentials set (Python truthiness: `None` and the empty
string count as unset), fails validation before the loop starts and the
process exits with code 2, which is non-zero. -/
theorem C7_config_validation (reSearch : List Char → List Char → Bool)
    (cfg : Config) (inputs : List IterInput)
    (h : (cfg.keyword = [] ∧ cfg.regex = []) ∨
      truthy cfg.telegram_token ≠ truthy cfg.telegram_chat_id) :
    mainRun reSearch cfg inputs = ([], LoopResult.exited 2) ∧ (2 : Nat) ≠ 0 := by
  have hs : configError cfg = true := by
    rcases h with ⟨h1, h2⟩ | h
    · simp [configError, h1, h2]
    · cases ht : truthy cfg.telegram_token <;>
        cases hc : truthy cfg.telegram_chat_id <;>
          simp_all [configError]
  exact ⟨by simp [mainRun, hs], by decide⟩

/-- Claim C7 witness: the concrete configuration with no keyword and no
regex exits with code 2 before any iteration. -/
theorem C7_witness :
    mainRun miniSearch cfgC7ex [] = ([], LoopResult.exited 2) ∧ (2 : Nat) ≠ 0 :=
  C7_config_validation miniSearch cfgC7ex [] (Or.inl ⟨rfl, rfl⟩)

/-- Claim C4: the Region Evaluator normalizes each token (trim, uppercase,
skip blank), omits a token iff the token-then-marker pattern matches — a
word-boundary case-insensitive occurrence of the token followed anywhere
later in the text by the literal marker — otherwise keeps it iff the bare
word-boundary token matches case-insensitively, preserving configuration
order; its outcome is true iff the available list is non-empty; and the spec
example yields available = [IN] with outcome true. -/
theorem C4_region_eval :
    (∀ (content : List Char) (regions : List (List Char)) (marker : List Char),
      (region_is_available content regions marker).2 =
        (regions.map normToken).filter
          (fun t => !t.isEmpty && !unavailMatch t content marker &&
            ciWordBoundarySearch t content)) ∧
    (∀ (content : List Char) (regions : List (List Char)) (marker : List Char),
      ((region_is_available content regions marker).1 = true ↔
        (region_is_available content regions marker).2 ≠ [])) ∧
    (∀ tok content marker : List Char,
      unavailMatch tok content marker = true ↔
        ∃ i, wbMatchAt (upperStr tok) (upperStr content) i = true ∧
          ∃ j, i + tok.length ≤ j ∧
            occursAt (upperStr content) (upperStr marker) j = true) ∧
    region_is_available "SG: full and unavailable. IN: ready".data
        ["SG".data, "IN".data] "full and unavailable".data =
      (true, ["IN".data]) := by
  refine ⟨?_, ?_, ?_, by decide⟩
  · intro content regions marker
    rw [region_is_available, regionLoop_eq]
  · intro content regions marker
    simp [region_is_available, List.isEmpty_eq_false]
  · intro tok content marker
    have hlen : (upperStr content).length = content.length := by simp [upperStr]
    have hlent : (upperStr tok).length = tok.length := by simp [upperStr]
    constructor
    · intro h
      simp only [unavailMatch, List.any_eq_true, Bool.and_eq_true] at h
      obtain ⟨i, hi, hm, hcf⟩ := h
      simp only [containsFrom, List.any_eq_true, Bool.and_eq_true] at hcf
      obtain ⟨j, hj, hsj, hocc⟩ := hcf
      refine ⟨i, hm, j, ?_, hocc⟩
      have h2 := of_decide_eq_true hsj
      rw [hlent] at h2
      exact h2
    · rintro ⟨i, hm, j, hij, hocc⟩
      have hle := wbMatchAt_le hm
      rw [hlent, hlen] at hle
      simp only [unavailMatch, List.any_eq_true, Bool.and_eq_true]
      refine ⟨i, ?_, hm, ?_⟩
      · rw [List.mem_range]
        omega
      · simp only [containsFrom, List.any_eq_true, Bool.and_eq_true]
        by_cases hmk : upperStr marker = []
        · refine ⟨i + (upperStr tok).length, ?_, ?_, ?_⟩
          · rw [List.mem_range, hlen, hlent]
            omega
          · rw [hlent]
            simp
          · rw [occursAt, hmk]
            simp [List.isPrefixOf]
        · have hjlt : j < (upperStr content).length := occursAt_lt hmk hocc
          rw [hlen] at hjlt
          refine ⟨j, ?_, ?_, hocc⟩
          · rw [List.mem_range, hlen]
            omega
          · rw [hlent]
            exact decide_eq_true hij

/-- Claim C10: with an empty unavailable-marker text, every token matching
the bare pattern also matches the unavailability pattern, so the Region
Evaluator returns an empty available list and outcome false on every text
and token list. -/
theorem C10_empty_marker (content : List Char) (regions : List (List Char)) :
    region_is_available content regions [] = (false, []) := by
  have hloop : regionLoop content [] regions = [] := by
    induction regions with
    | nil => rfl
    | cons region rest ih =>
      simp only [regionLoop]
      cases h1 : (normToken region).isEmpty with
      | true => simpa [h1] using ih
      | false =>
        cases h2 : unavailMatch (normToken region) content [] with
        | true => simpa [h1, h2] using ih
        | false =>
          have h3 : ciWordBoundarySearch (normToken region) content = false := by
            cases h3 : ciWordBoundarySearch (normToken region) content with
            | false => rfl
            | true =>
              exact absurd (unavail_of_ci (normToken region) content h3)
                (by simp [h2])
          simpa [h1, h2, h3] using ih
  simp [region_is_available, hloop]

/-- Claim C1 counterexample: with configured token `SG` and fetched text
`sg available`, the text contains the token case-insensitively at a word
boundary (as the claim's rule requires for the gate to pass), yet the gate
of `main` line 220 — which searches without `re.IGNORECASE` — fails, and the
whole decision is no trigger although the configured keyword matches. -/
theorem C1_counterexample :
    specRegionFilterCI ["SG".data] "sg available".data = true ∧
    regionFilterPass ["SG".data] "sg available".data = false ∧
    (matchesFn miniSearch "sg available".data ["available".data] []).1 = true ∧
    triggerDecision miniSearch cfgC1ex "sg available".data = false := by
  decide

/-- Claim C1 amended: for every text and region-token list with at least one
non-blank token, the region-filter gate passes iff the text contains the
uppercase-normalized form of at least one configured token matched with word
boundaries case-SENSITIVELY; when the gate fails, the decision is no trigger
regardless of keyword/regex matches. -/
theorem C1_amended (regions : List (List Char)) (content : List Char)
    (h : ∃ r ∈ regions, normToken r ≠ []) :
    (regionFilterPass regions content = true ↔
      ∃ r ∈ regions, normToken r ≠ [] ∧
        wordBoundarySearch (normToken r) content = true) ∧
    (∀ (reSearch : List Char → List Char → Bool) (cfg : Config),
      cfg.region = regions → regionFilterPass regions content = false →
      triggerDecision reSearch cfg content = false) := by
  constructor
  · have hE : ((regions.map normToken).filter (fun t => !t.isEmpty)).isEmpty
        = false := by
      obtain ⟨r, hr, hne⟩ := h
      rw [List.isEmpty_eq_false]
      intro hempty
      have hmem : normToken r ∈
          (regions.map normToken).filter (fun t => !t.isEmpty) := by
        rw [List.mem_filter]
        refine ⟨List.mem_map_of_mem _ hr, by simp [hne]⟩
      rw [hempty] at hmem
      exact absurd hmem (List.not_mem_nil _)
    rw [regionFilterPass, build_region_regex]
    simp only [hE, Bool.false_eq_true, if_false, regionAltSearch,
      List.any_eq_true]
    constructor
    · rintro ⟨t, ht, hw⟩
      rw [List.mem_filter] at ht
      obtain ⟨hmap, hne⟩ := ht
      rw [List.mem_map] at hmap
      obtain ⟨r, hr, hrt⟩ := hmap
      subst hrt
      refine ⟨r, hr, by simpa using hne, hw⟩
    · rintro ⟨r, hr, hne, hw⟩
      refine ⟨normToken r, ?_, hw⟩
      rw [List.mem_filter]
      exact ⟨List.mem_map_of_mem _ hr, by simp [hne]⟩
  · intro reSearch cfg hreg hgate
    have hg : regionFilterPass cfg.region content = false := by
      rw [hreg]
      exact hgate
    simp [triggerDecision, hg]

/-- Claim C1 witness: the amended gate characterization at the concrete
token list [SG] and text `SG up`. -/
theorem C1_witness :
    (regionFilterPass ["SG".data] "SG up".data = true ↔
      ∃ r ∈ ["SG".data], normToken r ≠ [] ∧
        wordBoundarySearch (normToken r) "SG up".data = true) ∧
    (∀ (reSearch : List Char → List Char → Bool) (cfg : Config),
      cfg.region = ["SG".data] →
      regionFilterPass ["SG".data] "SG up".data = false →
      triggerDecision reSearch cfg "SG up".data = false) :=
  C1_amended ["SG".data] "SG up".data (by decide)

/-- Claim C2 counterexample: a poll iteration whose trigger decision is
positive, with both messaging credentials configured, hits a messaging
transport failure: the loop run ends as crashed after the first iteration,
with no sleep event and the second poll never processed — contradicting
"does not abort the poll loop" and "the loop sleeps and continues". -/
theorem C2_counterexample :
    runLoop miniSearch cfgC2ex [inpC2a, inpC2b] =
      ([Event.logMatch "[t1] Match detected.".data],
        LoopResult.crashed "boom".data) ∧
    hasSleep [Event.logMatch "[t1] Match detected.".data] = false := by
  decide

/-- Claim C2 amended: when the trigger decision is positive, both messaging
credentials are configured and the messaging transport fails, the exception
propagates (the `except` clause covers only the fetch): the iteration sends
nothing, does not sleep, and the loop aborts as crashed, with later polls
never run. -/
theorem C2_amended (reSearch : List Char → List Char → Bool) (cfg : Config)
    (inp : IterInput) (rest : List IterInput) (content m : List Char)
    (hf : inp.fetch = FetchOutcome.ok content)
    (ht : triggerDecision reSearch cfg content = true)
    (hc : (truthy cfg.telegram_token && truthy cfg.telegram_chat_id) = true)
    (hs : inp.send = SendOutcome.sendFail m) :
    ∃ evs, loopIteration reSearch cfg inp = (evs, IterResult.crashed m) ∧
      hasSleep evs = false ∧ countSend evs = 0 ∧
      runLoop reSearch cfg (inp :: rest) = (evs, LoopResult.crashed m) := by
  obtain ⟨fetchv, tsv, sendv⟩ := inp
  simp only at hf hs
  subst hf
  subst hs
  have hiter : loopIteration reSearch cfg
      ⟨FetchOutcome.ok content, tsv, SendOutcome.sendFail m⟩ =
      (Event.logMatch (matchLine tsv) ::
        (if truthy cfg.command then [Event.runCmd (cfg.command.getD [])]
          else []),
        IterResult.crashed m) := by
    simp [loopIteration, ht, hc]
  refine ⟨_, hiter, ?_, ?_, ?_⟩
  · cases hcm : truthy cfg.command <;> simp [hasSleep, hcm]
  · cases hcm : truthy cfg.command <;> simp [countSend, hcm]
  · rw [runLoop, hiter]

/-- Claim C2 witness: the amended statement at the concrete crashing run. -/
theorem C2_witness :
    ∃ evs, loopIteration miniSearch cfgC2ex inpC2a =
        (evs, IterResult.crashed "boom".data) ∧
      hasSleep evs = false ∧ countSend evs = 0 ∧
      runLoop miniSearch cfgC2ex [inpC2a, inpC2b] =
        (evs, LoopResult.crashed "boom".data) :=
  C2_amended miniSearch cfgC2ex inpC2a [inpC2b] "hi".data "boom".data rfl
    (by decide) (by decide) rfl

/-- Claim C8: in single-shot mode, an iteration whose trigger decision is
positive (and whose configured dispatches succeed) logs the detection,
dispatches the command and the message each exactly as configured (at most
once), performs no sleep, and makes the loop exit with code 0 with all
later inputs unconsumed; an iteration whose decision is negative dispatches
nothing and the loop continues. -/
theorem C8_single_shot (reSearch : List Char → List Char → Bool) (cfg : Config)
    (inputs1 : List IterInput) (evs1 : List Event) (inp : IterInput)
    (rest : List IterInput) (content : List Char)
    (honce : cfg.once = true)
    (hf : inp.fetch = FetchOutcome.ok content)
    (ht : triggerDecision reSearch cfg content = true)
    (hsend : (truthy cfg.telegram_token && truthy cfg.telegram_chat_id) = true →
      inp.send = SendOutcome.sent)
    (hpre : runLoop reSearch cfg inputs1 = (evs1, LoopResult.pending)) :
    (∃ evs, loopIteration reSearch cfg inp = (evs, IterResult.exitZero) ∧
      hasSleep evs = false ∧
      countSend evs =
        (if truthy cfg.telegram_token && truthy cfg.telegram_chat_id then 1
          else 0) ∧
      countCmd evs = (if truthy cfg.command then 1 else 0) ∧
      runLoop reSearch cfg (inputs1 ++ inp :: rest) =
        (evs1 ++ evs, LoopResult.exited 0)) ∧
    (∀ (content2 ts : List Char) (send2 : SendOutcome),
      triggerDecision reSearch cfg content2 = false →
      loopIteration reSearch cfg ⟨FetchOutcome.ok content2, ts, send2⟩ =
        ([Event.sleep cfg.interval], IterResult.next)) := by
  constructor
  · obtain ⟨fetchv, tsv, sendv⟩ := inp
    simp only at hf hsend
    subst hf
    cases hcreds : (truthy cfg.telegram_token && truthy cfg.telegram_chat_id) with
    | true =>
      have hsent := hsend hcreds
      subst hsent
      have hiter : loopIteration reSearch cfg
          ⟨FetchOutcome.ok content, tsv, SendOutcome.sent⟩ =
          ((Event.logMatch (matchLine tsv) ::
            (if truthy cfg.command then [Event.runCmd (cfg.command.getD [])]
              else [])) ++
            [Event.sendMsg (buildMessage cfg
              (matchesFn reSearch content cfg.keyword cfg.regex).2
              (availableRegions cfg content))],
            IterResult.exitZero) := by
        simp [loopIteration, ht, hcreds, honce]
      refine ⟨_, hiter, ?_, ?_, ?_, ?_⟩
      · cases hcm : truthy cfg.command <;> simp [hasSleep, hcm]
      · cases hcm : truthy cfg.command <;> simp [countSend, hcm, hcreds]
      · cases hcm : truthy cfg.command <;> simp [countCmd, hcm]
      · exact runLoop_stop reSearch cfg inputs1 evs1 _ rest _ hpre hiter
    | false =>
      have hiter : loopIteration reSearch cfg
          ⟨FetchOutcome.ok content, tsv, sendv⟩ =
          (Event.logMatch (matchLine tsv) ::
            (if truthy cfg.command then [Event.runCmd (cfg.command.getD [])]
              else []),
            IterResult.exitZero) := by
        simp [loopIteration, ht, hcreds, honce]
      refine ⟨_, hiter, ?_, ?_, ?_, ?_⟩
      · cases hcm : truthy cfg.command <;> simp [hasSleep, hcm]
      · cases hcm : truthy cfg.command <;> simp [countSend, hcm, hcreds]
      · cases hcm : truthy cfg.command <;> simp [countCmd, hcm]
      · exact runLoop_stop reSearch cfg inputs1 evs1 _ rest _ hpre hiter
  · intro content2 ts send2 hneg
    simp [loopIteration, hneg]

/-- Claim C8 witness: the end-to-end spec scenario — first poll sees `SG sold
out, DE available` (no trigger, loop continues), second poll sees `SG
available now` (trigger fires once, loop exits 0, the third input is never
consumed). -/
theorem C8_witness :
    (∃ evs, loopIteration miniSearch cfgC8ex inpC8b =
        (evs, IterResult.exitZero) ∧
      hasSleep evs = false ∧
      countSend evs =
        (if truthy cfgC8ex.telegram_token && truthy cfgC8ex.telegram_chat_id
          then 1 else 0) ∧
      countCmd evs = (if truthy cfgC8ex.command then 1 else 0) ∧
      runLoop miniSearch cfgC8ex ([inpC8a] ++ inpC8b :: [inpC8a]) =
        ([Event.sleep 25] ++ evs, LoopResult.exited 0)) ∧
    (∀ (content2 ts : List Char) (send2 : SendOutcome),
      triggerDecision miniSearch cfgC8ex content2 = false →
      loopIteration miniSearch cfgC8ex ⟨FetchOutcome.ok content2, ts, send2⟩ =
        ([Event.sleep cfgC8ex.interval], IterResult.next)) :=
  C8_single_shot miniSearch cfgC8ex [inpC8a] [Event.sleep 25] inpC8b [inpC8a]
    "SG available now".data rfl rfl (by decide) (by decide) (by decide)

end Notifier
